import Mathlib

/-!
Verification of the streaming-event consumption and state-reconciliation core
of the `opps` frontend (`src/frontend/src/components/image-combiner.tsx` and
`src/frontend/src/utils/api.ts`), via a shallow embedding of the relevant
functions in Lean.

JavaScript strings are modelled as Lean `String`s with character-level
operations on `List Char`; JSON values as the inductive `Jval`; nullable
fields as `Option`; JS numbers as `Rat` (none of the verified claims depend
on floating-point behaviour).
-/

set_option linter.unusedVariables false

namespace Opps

/-! ### JS string primitives (models of the JavaScript builtins used) -/

/-- Model of the whitespace class recognized by `String.prototype.trim`
(restricted to the ASCII whitespace characters that can occur in the
inputs considered here). -/
def jsWhitespace (c : Char) : Bool :=
  c = ' ' || c = '\t' || c = '\n' || c = '\r' || c = '\x0b' || c = '\x0c'

/-- Character-level model of `String.prototype.trim`. -/
def jsTrimL (s : List Char) : List Char :=
  ((s.dropWhile jsWhitespace).reverse.dropWhile jsWhitespace).reverse

def jsTrim (s : String) : String := ⟨jsTrimL s.data⟩

/-- ASCII model of `String.prototype.toLowerCase` on a single character. -/
def lowerChar (c : Char) : Char :=
  if 'A' ≤ c && c ≤ 'Z' then Char.ofNat (c.toNat + 32) else c

/-- Character-level model of `String.prototype.toLowerCase` (ASCII). -/
def jsToLowerL (s : List Char) : List Char := s.map lowerChar

def jsToLower (s : String) : String := ⟨jsToLowerL s.data⟩

/-- Model of `a.startsWith(b)` at the character level. -/
def startsWithL (pre s : List Char) : Bool := s.take pre.length = pre

/-- Model of the JS `||` fallback on strings (empty string is falsy):
`value || fallback`. -/
def jsOr (value fallback : String) : String :=
  if value = "" then fallback else value

/-! ### Data model (`src/frontend/src/utils/api.ts`)

`ChangeInsight` is the adapted change record; `readAt` is `null` (unread) or
an ISO instant. `ChangeRadarEntry` in `image-combiner.tsx` is a type alias
for `ChangeInsight`. -/

structure ChangeInsight where
  id : String
  url : String
  changeType : String
  content : String
  timestamp : String
  threatLevel : Rat
  whyMatter : String
  suggestions : String
  readAt : Option String
deriving DecidableEq

/-! ### The change merge (`mergeChangeReadState`, image-combiner.tsx 2120-2129) -/

/-- Models building `new Map(previous.map((entry) => [entry.id, entry]))` and
calling `.get(id)`: a JS `Map` keeps the last entry inserted for a
duplicated key. -/
def previousById : List ChangeInsight → String → Option ChangeInsight
  | [], _ => none
  | p :: rest, i =>
    match previousById rest i with
    | some q => some q
    | none => if p.id = i then some p else none

/-- The body of the `next.map` callback in `mergeChangeReadState`: if a
previous entry with the same id exists, the produced record is the incoming
record with `readAt := existing.readAt ?? entry.readAt` (the JS `??` takes
the right operand exactly when the left is `null`). -/
def mergeChangeEntry (previous : List ChangeInsight) (entry : ChangeInsight) : ChangeInsight :=
  match previousById previous entry.id with
  | some existing =>
    { entry with
      readAt :=
        match existing.readAt with
        | some r => some r
        | none => entry.readAt }
  | none => entry

/-- Embedding of `mergeChangeReadState(previous, next)`. -/
def mergeChangeReadState (previous next : List ChangeInsight) : List ChangeInsight :=
  next.map (mergeChangeEntry previous)

/-- A change id carries a non-null read marker in a change list: the record
the `previousById` map holds for it has `readAt ≠ null`. -/
def readMarked (changes : List ChangeInsight) (i : String) : Bool :=
  match previousById changes i with
  | some p => p.readAt.isSome
  | none => false

/-! Helper lemmas about `previousById` and the merge. -/

theorem previousById_id_eq {l : List ChangeInsight} {i : String} {p : ChangeInsight}
    (h : previousById l i = some p) : p.id = i := by
  induction l with
  | nil => simp [previousById] at h
  | cons a rest ih =>
    simp only [previousById] at h
    cases hr : previousById rest i with
    | some q =>
      rw [hr] at h
      exact ih (hr.trans (by injection h with h; rw [h]))
    | none =>
      rw [hr] at h
      by_cases ha : a.id = i
      · simp [ha] at h
        rw [← h]
        exact ha
      · simp [ha] at h

theorem previousById_map {f : ChangeInsight → ChangeInsight}
    (hf : ∀ e, (f e).id = e.id) (l : List ChangeInsight) (i : String) :
    previousById (l.map f) i = (previousById l i).map f := by
  induction l with
  | nil => simp [previousById]
  | cons a rest ih =>
    simp only [List.map_cons, previousById, ih]
    cases previousById rest i with
    | some q => simp
    | none => simp [hf a]

/-- The per-entry merge function of `mergeChangeReadState` keeps the id. -/
theorem merge_entry_id (previous : List ChangeInsight) (entry : ChangeInsight) :
    (mergeChangeEntry previous entry).id = entry.id := by
  unfold mergeChangeEntry
  cases previousById previous entry.id with
  | some existing => rfl
  | none => rfl

theorem previousById_merge (previous next : List ChangeInsight) (i : String) :
    previousById (mergeChangeReadState previous next) i
      = (previousById next i).map (mergeChangeEntry previous) :=
  previousById_map (merge_entry_id previous) next i

/-- Single merge step preserves a non-null read marker for any id present in
the incoming list. -/
theorem readMarked_merge (previous next : List ChangeInsight) (i : String)
    (hread : readMarked previous i = true)
    (hmem : (previousById next i).isSome = true) :
    readMarked (mergeChangeReadState previous next) i = true := by
  cases hn : previousById next i with
  | none => rw [hn] at hmem; simp at hmem
  | some e =>
    have hid : e.id = i := previousById_id_eq hn
    unfold readMarked at hread ⊢
    rw [previousById_merge, hn, Option.map_some']
    simp only
    unfold mergeChangeEntry
    rw [hid]
    cases hp : previousById previous i with
    | none => rw [hp] at hread; simp at hread
    | some p =>
      rw [hp] at hread
      simp only at hread
      cases hr : p.readAt with
      | none => rw [hr] at hread; simp at hread
      | some r => simp [hr]

/-! ### C1 -/

/-- C1: Read-state monotonicity of the change merge. If an id's read marker is
non-null in the current local change list, then after merging any number of
successive incoming snapshots each containing that id, the merged record for
that id still has a non-null read marker: an incoming record with a null
marker never resets a locally read change to unread. -/
theorem mergeChangeReadState_read_monotone
    (snaps : List (List ChangeInsight)) (prev : List ChangeInsight) (i : String)
    (hread : readMarked prev i = true)
    (hmem : ∀ s ∈ snaps, (previousById s i).isSome = true) :
    readMarked (snaps.foldl mergeChangeReadState prev) i = true := by
  induction snaps generalizing prev with
  | nil => simpa using hread
  | cons s rest ih =>
    simp only [List.foldl_cons]
    exact ih (mergeChangeReadState prev s)
      (readMarked_merge prev s i hread (hmem s (List.mem_cons_self s rest)))
      (fun t ht => hmem t (List.mem_cons_of_mem s ht))

def changeReadOld : ChangeInsight :=
  { id := "c1", url := "https://example.com/pricing", changeType := "Modified"
    content := "Price updated", timestamp := "2024-05-01T00:00:00Z"
    threatLevel := 7, whyMatter := "Pricing shift", suggestions := "Review"
    readAt := some "2024-05-02T09:00:00Z" }

def changeIncomingUnread : ChangeInsight :=
  { changeReadOld with content := "Price updated again", readAt := none }

def changeIncomingNewer : ChangeInsight :=
  { changeReadOld with readAt := some "2025-01-01T00:00:00Z" }

/-- C1 witness: a concretely read change stays read across two successive
merges with incoming snapshots that lack the marker. -/
theorem mergeChangeReadState_read_monotone_witness :
    readMarked
      ([[changeIncomingUnread], [changeIncomingUnread]].foldl
        mergeChangeReadState [changeReadOld]) "c1" = true :=
  mergeChangeReadState_read_monotone
    [[changeIncomingUnread], [changeIncomingUnread]] [changeReadOld] "c1"
    (by decide) (by decide)

/-! ### C2 -/

/-- Lexicographic order on character lists. ISO-8601 instants of equal length
compare chronologically in this order, so it witnesses that one marker is
newer (more recent) than another. -/
def lexLt : List Char → List Char → Bool
  | [], [] => false
  | [], _ :: _ => true
  | _ :: _, [] => false
  | a :: as, b :: bs => if a < b then true else if a = b then lexLt as bs else false

def isoBefore (a b : String) : Bool := lexLt a.data b.data

/-- C2 counterexample: the incoming record carries a strictly newer non-null
read marker, yet the merge keeps the older local marker (`existing.readAt ??
entry.readAt` never compares recency), contradicting the claim that a newer
incoming marker wins. -/
theorem mergeChangeReadState_ignores_newer_incoming_cex :
    (mergeChangeReadState [changeReadOld] [changeIncomingNewer]).map (·.readAt)
        = [some "2024-05-02T09:00:00Z"]
      ∧ isoBefore "2024-05-02T09:00:00Z" "2025-01-01T00:00:00Z" = true
      ∧ (some "2024-05-02T09:00:00Z" : Option String)
          ≠ some "2025-01-01T00:00:00Z" := by
  refine ⟨by decide, by decide, by decide⟩

/-- C2 amended: when a change id exists in both the previous local list and
the incoming list, the merged record is the incoming record except that the
local read marker is carried forward whenever it is non-null — regardless of
the incoming marker, even a newer one; the incoming record's marker is kept
exactly when the local marker is null. -/
theorem mergeChangeReadState_local_marker_wins
    (prev next : List ChangeInsight) (i : String) (p e : ChangeInsight)
    (hp : previousById prev i = some p)
    (he : previousById next i = some e) :
    previousById (mergeChangeReadState prev next) i
      = some { e with
          readAt :=
            match p.readAt with
            | some r => some r
            | none => e.readAt } := by
  have hid : e.id = i := previousById_id_eq he
  rw [previousById_merge, he, Option.map_some']
  unfold mergeChangeEntry
  rw [hid, hp]

/-- C2 amended-claim witness at concrete records: the local 2024 marker
survives a merge against an incoming 2025 marker. -/
theorem mergeChangeReadState_local_marker_wins_witness :
    previousById (mergeChangeReadState [changeReadOld] [changeIncomingNewer]) "c1"
      = some { changeIncomingNewer with readAt := some "2024-05-02T09:00:00Z" } :=
  mergeChangeReadState_local_marker_wins [changeReadOld] [changeIncomingNewer]
    "c1" changeReadOld changeIncomingNewer (by decide) (by decide)

/-! ### JSON values and the event normalizer (`api.ts` 675-700) -/

/-- Decoded JSON values, as produced by `JSON.parse`. -/
inductive Jval where
  | null
  | bool (b : Bool)
  | num (q : Rat)
  | str (s : String)
  | arr (elems : List Jval)
  | obj (fields : List (String × Jval))

/-- Property lookup on a JS object literal: a later duplicate key overwrites
an earlier one, so the last binding wins. -/
def getField : List (String × Jval) → String → Option Jval
  | [], _ => none
  | (k, v) :: rest, key =>
    match getField rest key with
    | some r => some r
    | none => if k = key then some v else none

/-- Model of `record.key` property access (`undefined` is `none`). A named
property read on an array or primitive yields `undefined` here; the names
read by `normalizeEvent` are never array indices. -/
def Jval.getKey : Jval → String → Option Jval
  | .obj fields, key => getField fields key
  | _, _ => none

/-- Model of the guard `!payload || typeof payload !== 'object'` being passed:
`null` has typeof `'object'` but is falsy; arrays and plain objects are the
truthy values of typeof `'object'`. -/
def jsTruthyObject : Jval → Bool
  | .obj _ => true
  | .arr _ => true
  | _ => false

/-- Normalized events (`AnalysisStreamEvent` in `api.ts`): a stage event or a
status event. -/
inductive AnalysisStreamEvent where
  | stageEvent (stage : String) (data : Option Jval) (progress : Option Rat)
  | statusEvent (stage : String) (progress : Option Rat) (message : Option String)
      (data : Option Jval)

/-- Embedding of `normalizeEvent(payload)`: `null` models the early return for
non-object payloads; a string `type` tag is read (anything else coerces to
`"stage"`), and only `type === 'stage'` with a recognized stage name yields a
stage event; every other object yields a status event whose stage defaults to
`"unknown"`. -/
def normalizeEvent (payload : Jval) : Option AnalysisStreamEvent :=
  if jsTruthyObject payload = false then none
  else
    let type :=
      match payload.getKey "type" with
      | some (.str s) => s
      | _ => "stage"
    let progress : Option Rat :=
      match payload.getKey "progress" with
      | some (.num n) => some n
      | _ => none
    let message : Option String :=
      match payload.getKey "message" with
      | some (.str s) => some s
      | _ => none
    match payload.getKey "stage" with
    | some (.str sv) =>
      if type = "stage" && (sv = "tenant" || sv = "competitors" || sv = "changes") then
        some (.stageEvent sv (payload.getKey "data") progress)
      else
        some (.statusEvent sv progress message (payload.getKey "data"))
    | _ =>
      some (.statusEvent "unknown" progress message (payload.getKey "data"))

/-- Reads `record.stage` the way `normalizeEvent` does: a string value or
`undefined`. -/
def stageTag (payload : Jval) : Option String :=
  match payload.getKey "stage" with
  | some (.str s) => some s
  | _ => none

/-- Reads `record.type` when the tag is present as a string. -/
def typeTag (payload : Jval) : Option String :=
  match payload.getKey "type" with
  | some (.str s) => some s
  | _ => none

/-! ### C4 -/

/-- C4 counterexample: a decoded message that is not an object — here the bare
string `"failed"` — is dropped (`normalizeEvent` returns `null`), not
normalized to a `StatusEvent`, so a failure signal carried by a non-object
message is lost. -/
theorem normalizeEvent_nonobject_dropped_cex :
    normalizeEvent (Jval.str "failed") = none
      ∧ ¬ ∃ stage progress message data,
          normalizeEvent (Jval.str "failed")
            = some (.statusEvent stage progress message data) := by
  refine ⟨rfl, ?_⟩
  rintro ⟨stage, progress, message, data, h⟩
  simp [normalizeEvent, jsTruthyObject] at h

/-- C4 amended: a decoded message that is not an object is dropped
(`normalizeEvent` returns `null`); an object message whose type tag is
present as a string other than `"stage"` normalizes to a `StatusEvent` whose
stage defaults to `"unknown"` when absent, so status-borne failure/completion
signaling on object messages is never lost. -/
theorem normalizeEvent_status_fallback (payload : Jval) (t : String) :
    (jsTruthyObject payload = false → normalizeEvent payload = none)
      ∧ (jsTruthyObject payload = true → typeTag payload = some t → t ≠ "stage" →
          normalizeEvent payload
            = some (.statusEvent ((stageTag payload).getD "unknown")
                (match payload.getKey "progress" with
                  | some (.num n) => some n
                  | _ => none)
                (match payload.getKey "message" with
                  | some (.str s) => some s
                  | _ => none)
                (payload.getKey "data"))) := by
  constructor
  · intro hfalse
    unfold normalizeEvent
    rw [hfalse]
    rfl
  · intro htrue htag hne
    unfold normalizeEvent
    rw [htrue]
    simp only [Bool.false_eq_true, if_false]
    unfold typeTag at htag
    unfold stageTag
    cases hty : payload.getKey "type" with
    | none => rw [hty] at htag; exact absurd htag (by simp)
    | some v =>
      rw [hty] at htag
      cases v with
      | str s =>
        have hst : s = t := by simpa using htag
        subst hst
        cases hsv : payload.getKey "stage" with
        | none => simp
        | some w =>
          cases w <;> simp [hne]
      | null => simp at htag
      | bool b => simp at htag
      | num q => simp at htag
      | arr es => simp at htag
      | obj fs => simp at htag

def statusPayloadSample : Jval :=
  .obj [("type", .str "status"), ("message", .str "Analysis failed"),
        ("progress", .num 40)]

/-- C4 amended-claim witness: a concrete `type: "status"` object without a
stage tag normalizes to a status event with stage `"unknown"`, and the
non-object branch fires on a concrete number. -/
theorem normalizeEvent_status_fallback_witness :
    normalizeEvent (Jval.num 7) = none
      ∧ normalizeEvent statusPayloadSample
          = some (.statusEvent "unknown" (some 40) (some "Analysis failed") none) := by
  constructor
  · exact (normalizeEvent_status_fallback (Jval.num 7) "status").1 rfl
  · exact (normalizeEvent_status_fallback statusPayloadSample "status").2 rfl rfl
      (by decide)

/-! ### The event channel (`streamAnalysisEvents`, `api.ts` 491-561)

The channel's mutable state is the ordered `queue` of normalized events and
the `closed` latch set by the socket's `close`/`error` listeners. Incoming
socket activity is a list of `ChanInput`s; the consumer side is the
`while (!closed || queue.length > 0)` loop, modelled by `runLoop`, which
also counts its suspensions (the `await new Promise(...)` on an empty open
queue). -/

inductive ChanInput where
  /-- A `message` event; `none` models a frame whose `JSON.parse` throws
  (caught and ignored). -/
  | message (raw : Option Jval)
  /-- The `close` (or `error`) event: the `finalize` listener sets the
  `closed` latch. -/
  | close

structure ChanState where
  queue : List AnalysisStreamEvent
  closed : Bool

def chanInit : ChanState := ⟨[], false⟩

/-- One socket listener firing: a parsed message is normalized and pushed to
the back of the queue (dropped if `normalizeEvent` returns `null`); close or
error sets the latch and never discards the queue. -/
def handleSocketInput (s : ChanState) : ChanInput → ChanState
  | .message none => s
  | .message (some j) =>
    match normalizeEvent j with
    | some e => { s with queue := s.queue ++ [e] }
    | none => s
  | .close => { s with closed := true }

def ingestInputs (s : ChanState) (ins : List ChanInput) : ChanState :=
  ins.foldl handleSocketInput s

/-- The normalized events of a list of socket inputs, in arrival order. -/
def normalizedOf (ins : List ChanInput) : List AnalysisStreamEvent :=
  ins.filterMap fun i =>
    match i with
    | .message (some j) => normalizeEvent j
    | _ => none

/-- The consumer loop of `streamAnalysisEvents`: with a non-empty queue it
shifts and yields the front event; with an empty queue it terminates if
`closed`, else suspends on a fresh promise until the next input wakes it.
Returns the yielded events and the number of suspensions. -/
def runLoop : List ChanInput → ChanState → List AnalysisStreamEvent × Nat
  | ins, ⟨e :: q, c⟩ =>
    let r := runLoop ins ⟨q, c⟩
    (e :: r.1, r.2)
  | _, ⟨[], true⟩ => ([], 0)
  | [], ⟨[], false⟩ => ([], 1)
  | i :: rest, ⟨[], false⟩ =>
    let r := runLoop rest (handleSocketInput ⟨[], false⟩ i)
    (r.1, r.2 + 1)
termination_by ins s => (ins.length, s.queue.length)

theorem ingestInputs_queue (ins : List ChanInput) (s : ChanState) :
    (ingestInputs s ins).queue = s.queue ++ normalizedOf ins := by
  induction ins generalizing s with
  | nil => simp [ingestInputs, normalizedOf]
  | cons i rest ih =>
    cases i with
    | message raw =>
      cases raw with
      | none => simp [ingestInputs, List.foldl_cons, handleSocketInput, normalizedOf] at ih ⊢; exact ih s
      | some j =>
        simp only [ingestInputs, List.foldl_cons, handleSocketInput] at ih ⊢
        cases hn : normalizeEvent j with
        | none => simpa [normalizedOf, hn] using ih s
        | some e =>
          have := ih { s with queue := s.queue ++ [e] }
          simp only [ingestInputs] at this
          rw [this]
          simp [normalizedOf, hn]
    | close =>
      simp only [ingestInputs, List.foldl_cons, handleSocketInput] at ih ⊢
      have := ih { s with closed := true }
      simp only [ingestInputs] at this
      rw [this]
      simp [normalizedOf]

theorem ingestInputs_closed (ins : List ChanInput) (s : ChanState)
    (h : s.closed = true) : (ingestInputs s ins).closed = true := by
  induction ins generalizing s with
  | nil => simpa [ingestInputs] using h
  | cons i rest ih =>
    simp only [ingestInputs, List.foldl_cons] at ih ⊢
    apply ih
    cases i with
    | message raw =>
      cases raw with
      | none => exact h
      | some j =>
        simp only [handleSocketInput]
        cases normalizeEvent j with
        | none => exact h
        | some e => exact h
    | close => rfl

/-- Once the latch is closed, the loop drains the whole queue in order and
terminates without suspending, whatever inputs might still be pending. -/
theorem runLoop_closed_drains (q : List AnalysisStreamEvent) (ins : List ChanInput) :
    runLoop ins ⟨q, true⟩ = (q, 0) := by
  induction q with
  | nil => simp [runLoop]
  | cons e rest ih => simp [runLoop, ih]

/-! ### C5 -/

/-- C5: when the connection closes (or errors) after any sequence of socket
activity, the async sequence yields exactly the events buffered so far — which
are the normalized events in arrival order — and then terminates with zero
further suspensions: close never truncates undelivered buffered events and no
reordering occurs. -/
theorem streamAnalysisEvents_drains_on_close (pre post : List ChanInput) :
    runLoop post (ingestInputs chanInit (pre ++ [ChanInput.close]))
        = (normalizedOf pre, 0)
      ∧ (ingestInputs chanInit pre).queue = normalizedOf pre := by
  constructor
  · have hq : (ingestInputs chanInit (pre ++ [ChanInput.close])).queue
        = normalizedOf pre := by
      rw [ingestInputs_queue]
      simp [chanInit, normalizedOf]
    have hc : (ingestInputs chanInit (pre ++ [ChanInput.close])).closed = true := by
      unfold ingestInputs
      rw [List.foldl_append]
      rfl
    have : ingestInputs chanInit (pre ++ [ChanInput.close])
        = ⟨normalizedOf pre, true⟩ := by
      cases h : ingestInputs chanInit (pre ++ [ChanInput.close]) with
      | mk qu cl =>
        rw [h] at hq hc
        simp at hq hc
        rw [hq, hc]
    rw [this]
    exact runLoop_closed_drains (normalizedOf pre) post
  · rw [ingestInputs_queue]
    simp [chanInit]

/-! ### URL model and `normalizeMonitorUrl` (image-combiner.tsx 2156-2197) -/

/-- The components of a parsed URL read by the client: `hostname` (lowercased
by the parser), `pathname` (always beginning with `/`), `search` (empty or
beginning with `?`) and `hash` (empty or beginning with `#`). -/
structure UrlParts where
  hostname : List Char
  pathname : List Char
  search : List Char
  hash : List Char

/-- Splits a character list at the first occurrence of one of `stops`,
returning the segment before it and the remainder starting at the stop. -/
def takeUntil (stops : List Char) : List Char → List Char × List Char
  | [] => ([], [])
  | c :: cs =>
    if c ∈ stops then ([], c :: cs)
    else
      let r := takeUntil stops cs
      (c :: r.1, r.2)

/-- Recognizes the `http://` / `https://` scheme of an absolute URL and
returns the part after it. -/
def stripScheme (s : List Char) : Option (List Char) :=
  if startsWithL "http://".data s then some (s.drop 7)
  else if startsWithL "https://".data s then some (s.drop 8)
  else none

/-- Splits everything after the authority into `(pathname, search, hash)`:
the pathname begins at `/` (defaulting to `/` when the path is absent), the
search begins at `?` and runs to `#`, the hash is the remainder. -/
def splitAfterHost (r : List Char) : List Char × List Char × List Char :=
  let pathSplit :=
    if r.head? = some '/' then takeUntil ['?', '#'] r else ("/".data, r)
  let querySplit :=
    if pathSplit.2.head? = some '?' then takeUntil ['#'] pathSplit.2
    else ([], pathSplit.2)
  (pathSplit.1, querySplit.1, querySplit.2)

/-- Host code points that make the WHATWG host parser throw for special
schemes and are not otherwise structural in this model (the separators
`/ ? # : @` are handled structurally; tab and newline are stripped, not
thrown, and `[`/`]`/`%` enter the IP-literal and percent-decoding machinery
that is outside the modelled fragment). -/
def forbiddenHostChar (c : Char) : Bool :=
  c = '\x00' || c = ' ' || c = '<' || c = '>' || c = '^' || c = '|'

/-- The part of the authority after the last `@`: the WHATWG parser treats
everything up to the last `@` as userinfo and derives the host from the
remainder. -/
def dropUserinfo (l : List Char) : List Char :=
  (l.reverse.takeWhile fun c => c != '@').reverse

/-- Modelled from the builtin WHATWG `URL` parser for absolute `http(s)`
URLs: the scheme is recognized, everything up to the last `@` of the
authority is discarded as userinfo, anything after a `:` is excluded from
the hostname as a port, the hostname is ASCII-lowercased, and the
constructor throwing is modelled by `none` — for an empty hostname or a
forbidden host code point (`forbiddenHostChar`). The model is faithful on
the character fragment delimited by `hostChars`/`pathChars`/`queryChars`/
`fragChars` below; outside that fragment the builtin additionally strips
tab and newline, percent-decodes hosts, applies IDNA to `xn--` labels,
parses IPv4/IPv6 number forms, validates ports, treats `\` like `/`,
normalizes dot-segments, and percent-encodes path, query and fragment code
points — none of which is modelled, and no theorem in this file admits
such inputs. -/
def parseUrl (s : List Char) : Option UrlParts :=
  match stripScheme s with
  | none => none
  | some rest =>
    let hostname := (takeUntil [':'] (dropUserinfo (takeUntil ['/', '?', '#'] rest).1)).1
    if hostname = [] ∨ hostname.any forbiddenHostChar = true then none
    else
      let ps := splitAfterHost (takeUntil ['/', '?', '#'] rest).2
      some
        { hostname := jsToLowerL hostname
          pathname := ps.1
          search := ps.2.1
          hash := ps.2.2 }

/-- `CompetitorInsight` from `api.ts`: `competitorId` is the optional
secondary identifier used for server-side tracking correlation. -/
structure CompetitorInsight where
  id : String
  competitorId : Option String
  displayName : String
  primaryUrl : String
  briefDescription : String
  source : String
  confidence : Rat
  demographics : String
deriving DecidableEq

/-- The adapted competitors-stage snapshot (`CompetitorStageSnapshot`). -/
structure CompetitorStageSnapshot where
  competitors : List CompetitorInsight
  trackedCompetitorIds : List String
deriving DecidableEq

/-- Model of `url.replace(/^https?:\x2f\x2f/, '')`. -/
def stripHttpScheme (url : List Char) : List Char :=
  if startsWithL "https://".data url then url.drop 8
  else if startsWithL "http://".data url then url.drop 7
  else url

/-- Model of `hostname.replace(/^www\./, '')`. -/
def stripWww (h : List Char) : List Char :=
  if startsWithL "www.".data h then h.drop 4 else h

/-- Embedding of `formatDisplayUrl(url)` (image-combiner.tsx 2431-2439). -/
def formatDisplayUrlL (url : List Char) : List Char :=
  let target := if startsWithL "http".data url then url else "https://".data ++ url
  match parseUrl target with
  | some u => stripWww u.hostname
  | none => stripHttpScheme url

def formatDisplayUrl (url : String) : String := ⟨formatDisplayUrlL url.data⟩

/-- Embedding of `domainForFavicon(rawUrl)` (image-combiner.tsx 2525-2534). -/
def domainForFaviconL (rawUrl : List Char) : Option (List Char) :=
  if rawUrl = [] then none
  else
    let target := if startsWithL "http".data rawUrl then rawUrl else "https://".data ++ rawUrl
    match parseUrl target with
    | some u => some (stripWww u.hostname)
    | none => none

def domainForFavicon (rawUrl : String) : Option String :=
  (domainForFaviconL rawUrl.data).map fun l => ⟨l⟩

/-- One label/value row of a card's `extended` list. -/
structure ExtendedField where
  label : String
  value : String
deriving DecidableEq

/-- The `CardItem` record built by `toCompetitorCard`. Its type lives in the
expandable-card component, which is not part of the sources; the fields are
taken from the construction site. The `icon` React element is modelled by
the favicon domain it is built from. -/
structure CardItem where
  id : String
  title : String
  subtitle : String
  iconDomain : Option String
  description : String
  details : String
  metadata : String
  extended : List ExtendedField
  link : Option String
deriving DecidableEq

/-- Embedding of `toCompetitorCard(insight, isTracked = true)`
(image-combiner.tsx 2094-2118). `Math.round` on the percentage is `round`;
JS renders a non-negative integer the way `toString` does. -/
def toCompetitorCard (insight : CompetitorInsight) (isTracked : Bool := true) : CardItem :=
  let displayUrl := formatDisplayUrl insight.primaryUrl
  let confidencePercent : Int := round (insight.confidence * 100)
  let domain := domainForFavicon insight.primaryUrl
  let metadata :=
    if isTracked then insight.demographics
    else jsOr insight.demographics "Undisclosed audience" ++ " · untracked"
  { id := insight.id
    title := insight.displayName
    subtitle := displayUrl
    iconDomain := domain
    description := "Confidence: " ++ toString confidencePercent ++ "% · Source: "
      ++ insight.source
    details := insight.briefDescription
    metadata := metadata
    extended :=
      [⟨"Primary URL", jsOr displayUrl "Not published"⟩,
       ⟨"Audience", jsOr insight.demographics "Undisclosed audience"⟩,
       ⟨"Signal source", jsOr insight.source "analysis"⟩,
       ⟨"Confidence score", toString confidencePercent ++ "%"⟩]
    link := if insight.primaryUrl = "" then none else some insight.primaryUrl }

/-- The tracked flag computed for each insight on a competitors-stage event
(image-combiner.tsx 732-739 and 303-310): `trackedSet` is
`new Set(snapshot.trackedCompetitorIds)`, so `size === 0` holds exactly when
the id list is empty, and `has` is list membership; the secondary identifier
is consulted only when truthy (non-null and non-empty). -/
def isTrackedIn (trackedCompetitorIds : List String) (insight : CompetitorInsight) : Bool :=
  if trackedCompetitorIds.isEmpty then true
  else
    trackedCompetitorIds.contains insight.id
      || match insight.competitorId with
         | some cid => if cid = "" then false else trackedCompetitorIds.contains cid
         | none => false

/-- The competitors-stage state update in `handleSubmit` (730-746) and
`loadMonitorResults` (301-317): `setCompetitorCards(cards)` replaces the
displayed list wholesale with the cards adapted from the snapshot; the
previous displayed list is not consulted. -/
def applyCompetitorsStage (previous : List CardItem) (snapshot : CompetitorStageSnapshot) :
    List CardItem :=
  snapshot.competitors.map fun insight =>
    toCompetitorCard insight (isTrackedIn snapshot.trackedCompetitorIds insight)

/-- The displayed-list update of `handleAddCompetitor` (1135-1138): any card
with the added insight's id is filtered out and the new card is prepended. -/
def addCompetitorCards (previous : List CardItem) (insight : CompetitorInsight) :
    List CardItem :=
  toCompetitorCard insight :: previous.filter fun item => item.id != insight.id

theorem toCompetitorCard_id (insight : CompetitorInsight) (b : Bool) :
    (toCompetitorCard insight b).id = insight.id := rfl

/-! ### C3 -/

def manualInsight : CompetitorInsight :=
  { id := "manual.com", competitorId := some "manual.com"
    displayName := "Manual", primaryUrl := "https://manual.com"
    briefDescription := "Added manually", source := "manual"
    confidence := 1/2, demographics := "Undisclosed audience" }

def emptyServerSnapshot : CompetitorStageSnapshot :=
  { competitors := [], trackedCompetitorIds := [] }

/-- C3 counterexample: a manually added peer that is absent from the incoming
server snapshot is dropped by the refresh — the merged displayed list does
not contain it, contradicting the id-union claim. -/
theorem applyCompetitorsStage_drops_manual_cex :
    ((applyCompetitorsStage (addCompetitorCards [] manualInsight) emptyServerSnapshot).any
        fun c => c.id = "manual.com") = false
      ∧ ((addCompetitorCards [] manualInsight).any fun c => c.id = "manual.com") = true := by
  constructor
  · rfl
  · rfl

/-- C3 amended: a competitors refresh replaces the displayed list wholesale
with the adapted server list — the merged ids are exactly the server
snapshot's competitor ids and the previous displayed list (manual additions
included) is ignored; a manual add itself prepends the new card and removes
any same-id card, so the manual copy wins locally until the next refresh. -/
theorem competitors_refresh_replaces_wholesale
    (previous : List CardItem) (snapshot : CompetitorStageSnapshot)
    (insight : CompetitorInsight) (c : CardItem) :
    (applyCompetitorsStage previous snapshot).map (·.id)
        = snapshot.competitors.map (·.id)
      ∧ applyCompetitorsStage previous snapshot = applyCompetitorsStage [] snapshot
      ∧ (addCompetitorCards previous insight).head? = some (toCompetitorCard insight)
      ∧ (c ∈ (addCompetitorCards previous insight).tail → c.id ≠ insight.id) := by
  refine ⟨?_, rfl, rfl, ?_⟩
  · unfold applyCompetitorsStage
    rw [List.map_map]
    rfl
  · intro hc
    have : c ∈ previous.filter fun item => item.id != insight.id := hc
    have hpred := (List.mem_filter.mp this).2
    simpa using hpred

def unrelatedCard : CardItem :=
  { id := "other.com", title := "Other", subtitle := "other.com"
    iconDomain := some "other.com", description := "Confidence: 50% · Source: analysis"
    details := "No briefing yet.", metadata := "Undisclosed audience"
    extended := [], link := some "https://other.com" }

/-- C3 amended-claim witness: with a concrete unrelated card in the list, the
card surviving in the tail after a manual add has a different id. -/
theorem competitors_refresh_replaces_wholesale_witness :
    unrelatedCard.id ≠ manualInsight.id :=
  (competitors_refresh_replaces_wholesale [unrelatedCard] emptyServerSnapshot
    manualInsight unrelatedCard).2.2.2 (by decide)

/-! ### C9 -/

/-- C9: tracked-set bootstrap. With an empty tracked-id set every surfaced
peer reports tracked = true; with a non-empty set a peer is tracked exactly
when its id, or its secondary identifier when present (truthy), belongs to
the set. -/
theorem isTrackedIn_bootstrap (ids : List String) (insight : CompetitorInsight) :
    (ids = [] → isTrackedIn ids insight = true)
      ∧ (ids ≠ [] →
          (isTrackedIn ids insight = true ↔
            insight.id ∈ ids
              ∨ ∃ cid, insight.competitorId = some cid ∧ cid ≠ "" ∧ cid ∈ ids)) := by
  constructor
  · intro h
    subst h
    rfl
  · intro hne
    unfold isTrackedIn
    rw [if_neg (by simpa [List.isEmpty_iff] using hne)]
    cases hcid : insight.competitorId with
    | none =>
      simp [List.elem_iff]
    | some cid =>
      by_cases hemp : cid = ""
      · subst hemp
        simp [List.elem_iff]
      · simp [hemp, List.elem_iff]

/-- C9 witness: concrete checks on both sides of the bootstrap convention. -/
theorem isTrackedIn_bootstrap_witness :
    isTrackedIn [] manualInsight = true
      ∧ (isTrackedIn ["tracked.com"] manualInsight = true ↔
          manualInsight.id ∈ ["tracked.com"]
            ∨ ∃ cid, manualInsight.competitorId = some cid ∧ cid ≠ ""
                ∧ cid ∈ ["tracked.com"]) :=
  ⟨(isTrackedIn_bootstrap [] manualInsight).1 rfl,
   (isTrackedIn_bootstrap ["tracked.com"] manualInsight).2 (by decide)⟩

/-! ### The mark-read handlers (image-combiner.tsx 552-584, api.ts 429-449) -/

/-- The observable result of an awaited API call: success, or a thrown error
with its message. -/
inductive ApiResult where
  | ok
  | fail (msg : String)
deriving DecidableEq

/-- The component state touched by `handleBulkMarkChangesRead`. -/
structure BulkState where
  changes : List ChangeInsight
  error : Option String
  isBulkMarkPending : Bool
deriving DecidableEq

/-- The outcome of a bulk mark-read: the final state and the batched
requests issued to `bulkMarkChangesRead` (each request carries its id
list). -/
structure BulkOutcome where
  state : BulkState
  requests : List (List String)
deriving DecidableEq

/-- Embedding of `handleBulkMarkChangesRead(changeIds)` (568-584): an empty
selection or an in-flight batch bails out with no request; otherwise one
batched request is issued, and only on its success are the read markers of
the targeted ids stamped with the current time; on failure the change list
is untouched and the error message is surfaced via `setError`. -/
def handleBulkMarkChangesRead (s : BulkState) (changeIds : List String)
    (now : String) (result : ApiResult) : BulkOutcome :=
  if changeIds.isEmpty || s.isBulkMarkPending then ⟨s, []⟩
  else
    match result with
    | .ok =>
      ⟨{ changes := s.changes.map fun change =>
            if changeIds.contains change.id then { change with readAt := some now }
            else change
         error := s.error
         isBulkMarkPending := false }, [changeIds]⟩
    | .fail msg =>
      ⟨{ changes := s.changes, error := some msg, isBulkMarkPending := false },
        [changeIds]⟩

/-! ### C7 -/

/-- C7: bulk mark-read is all-or-nothing. For a non-empty selection with no
batch in flight, exactly one batched request carrying all selected ids is
issued; on success the targeted ids' markers are stamped; on failure every
change is left untouched and the error is surfaced. -/
theorem handleBulkMarkChangesRead_all_or_nothing
    (s : BulkState) (changeIds : List String) (now : String) (result : ApiResult)
    (hids : changeIds ≠ []) (hpending : s.isBulkMarkPending = false) :
    (handleBulkMarkChangesRead s changeIds now result).requests = [changeIds]
      ∧ (result = .ok →
          (handleBulkMarkChangesRead s changeIds now result).state.changes
            = s.changes.map fun change =>
                if changeIds.contains change.id then { change with readAt := some now }
                else change)
      ∧ (∀ msg, result = .fail msg →
          (handleBulkMarkChangesRead s changeIds now result).state.changes = s.changes
            ∧ (handleBulkMarkChangesRead s changeIds now result).state.error
                = some msg) := by
  have hcond : (changeIds.isEmpty || s.isBulkMarkPending) = false := by
    rw [hpending]
    simpa [List.isEmpty_iff] using hids
  unfold handleBulkMarkChangesRead
  rw [hcond]
  simp only [Bool.false_eq_true, if_false]
  cases result with
  | ok =>
    refine ⟨rfl, fun _ => rfl, ?_⟩
    intro msg h
    simp at h
  | fail m =>
    refine ⟨rfl, ?_, ?_⟩
    · intro h
      simp at h
    · intro msg h
      injection h with h1
      subst h1
      exact ⟨rfl, rfl⟩

def bulkStateSample : BulkState :=
  { changes := [changeIncomingUnread], error := none, isBulkMarkPending := false }

/-- C7 witness: a concretely failing batch over one unread change leaves the
change list untouched and surfaces the error. -/
theorem handleBulkMarkChangesRead_all_or_nothing_witness :
    (handleBulkMarkChangesRead bulkStateSample ["c1"] "2025-03-01T00:00:00Z"
        (ApiResult.fail "boom")).state.changes = bulkStateSample.changes
      ∧ (handleBulkMarkChangesRead bulkStateSample ["c1"] "2025-03-01T00:00:00Z"
          (ApiResult.fail "boom")).state.error = some "boom" :=
  (handleBulkMarkChangesRead_all_or_nothing bulkStateSample ["c1"]
    "2025-03-01T00:00:00Z" (ApiResult.fail "boom") (by decide) rfl).2.2 "boom" rfl

/-! ### The submit validation prefix (`handleSubmit`, image-combiner.tsx 607-650) -/

/-- What the prefix of `handleSubmit` up to the `startAnalysis` call does
observably: whether the `startAnalysis` request (which creates the analysis
task) is reached, what error message is surfaced via `setError` on the way
(`none` = no error state written before the bail-out; the proceeding branch
writes `setError(null)`, also `none` here), and whether streaming is
entered. An empty-after-trim url hits the bare `return`; an unauthenticated
user is redirected to login; otherwise control reaches `startAnalysis`. -/
structure SubmitPrefix where
  requestSent : Bool
  errorSurfaced : Option String
  proceedsToStream : Bool
deriving DecidableEq

def handleSubmitPrefix (url : String) (isAuthenticated : Bool) : SubmitPrefix :=
  if jsTrim url = "" then ⟨false, none, false⟩
  else if !isAuthenticated then ⟨false, none, false⟩
  else ⟨true, none, true⟩

/-! ### C8 -/

/-- C8 counterexample: submitting a whitespace-only url is rejected, but
silently — no validation error message is surfaced to the user (the claim
requires one), even though indeed no request is sent. -/
theorem handleSubmit_empty_url_silent_cex :
    (handleSubmitPrefix "   " true).errorSurfaced = none
      ∧ (handleSubmitPrefix "   " true).requestSent = false := by
  refine ⟨by decide, by decide⟩

/-- C8 amended: an url that is empty after trimming makes `handleSubmit`
return before any network call — no analysis task is started and no request
is sent — but silently: no validation error message is surfaced. -/
theorem handleSubmit_empty_url_rejected (url : String) (auth : Bool)
    (h : jsTrim url = "") :
    handleSubmitPrefix url auth
      = { requestSent := false, errorSurfaced := none, proceedsToStream := false } := by
  unfold handleSubmitPrefix
  rw [if_pos h]

/-- C8 amended-claim witness on a concrete whitespace url. -/
theorem handleSubmit_empty_url_rejected_witness :
    handleSubmitPrefix " \t " false
      = { requestSent := false, errorSurfaced := none, proceedsToStream := false } :=
  handleSubmit_empty_url_rejected " \t " false (by decide)

/-! ### C10 (`handleMarkChangeRead`, image-combiner.tsx 552-566) -/

/-- Outcome of a single mark-read: the updated change list and the surfaced
error (always `none`: the catch block only logs). -/
structure SingleMarkOutcome where
  changes : List ChangeInsight
  error : Option String
deriving DecidableEq

/-- Embedding of `handleMarkChangeRead(changeId)`: the API call's result is
a parameter but the update runs after the try/catch regardless of it; a
change is stamped with the current time only when its id matches and its
marker is still null (`change.id === changeId && !change.readAt`). -/
def handleMarkChangeRead (changes : List ChangeInsight) (changeId now : String)
    (result : ApiResult) : SingleMarkOutcome :=
  ⟨changes.map fun change =>
      if change.id = changeId ∧ change.readAt = none
      then { change with readAt := some now } else change,
    none⟩

/-- C10 counterexample: for a change that is already read, a repeated single
mark-read does not set the marker to the current time — the old marker is
kept — contradicting the claim that the marker is set to the current time
for every change id. -/
theorem handleMarkChangeRead_already_read_cex :
    (handleMarkChangeRead [changeReadOld] "c1" "2025-02-02T00:00:00Z"
        ApiResult.ok).changes.map (·.readAt) = [some "2024-05-02T09:00:00Z"]
      ∧ (some "2024-05-02T09:00:00Z" : Option String)
          ≠ some "2025-02-02T00:00:00Z" := by
  refine ⟨by decide, by decide⟩

/-- C10 amended: single mark-read is optimistic and failure-blind — the
outcome is identical whether the server call succeeded or threw, no error is
ever surfaced, and pointwise a change is stamped with the current time
exactly when its id matches and it was previously unread; an existing marker
is left unchanged. -/
theorem handleMarkChangeRead_optimistic
    (changes : List ChangeInsight) (changeId now : String) (result : ApiResult) :
    (handleMarkChangeRead changes changeId now result).error = none
      ∧ handleMarkChangeRead changes changeId now result
          = handleMarkChangeRead changes changeId now ApiResult.ok
      ∧ ∀ i : Nat,
          ((handleMarkChangeRead changes changeId now result).changes[i]?).map (·.readAt)
            = (changes[i]?).map fun change =>
                if change.id = changeId ∧ change.readAt = none
                then some now else change.readAt := by
  refine ⟨rfl, rfl, ?_⟩
  intro i
  unfold handleMarkChangeRead
  simp only [List.getElem?_map]
  cases changes[i]? with
  | none => rfl
  | some change =>
    simp only [Option.map_some']
    by_cases hcond : change.id = changeId ∧ change.readAt = none
    · rw [if_pos hcond, if_pos hcond]
    · rw [if_neg hcond, if_neg hcond]

end Opps